import Mathlib

/-!
Shallow embedding of the layer-compositing core of the GalCharacter_Displayer
repository (package `ginka_composer`), together with theorems settling the
frozen claims about its specification.

Conventions of the embedding:
* Python `dict[int, V]` values are modelled as insertion-ordered association
  lists `List (Int × V)` with unique keys; `dict` insertion updates an existing
  key in place and appends a new key at the end, `del` removes the key.
* Python `float` arithmetic is modelled over `ℚ` (the touched computations are
  ring operations, exact over the rationals).
* Decoded images are opaque handles (`Nat`).
* Python `sorted` is a stable sort; it is embedded as `List.insertionSort`,
  which is stable for the same key comparator, hence produces the same list.
* Filesystem checks (`os.path.exists`) become explicit `Bool` parameters, and
  the two failure points of `loadScene` (unreadable/malformed JSON before any
  mutation, a malformed character record inside the rebuild loop) become an
  `Option` at the scene level and an `Option` per character record.
-/

namespace GinkaComposer

/-- One value of `CharacterInstance.composition_layers`
(`src/ginka_composer/ui/main_window.py`): the layer position used by the
renderers, and the optional `z_order` hint stored for custom layers, read by
`_insert_layer_by_z_order` via `existing_layer.get('z_order', 0)`. -/
structure LayerInfo where
  posX : ℚ
  posY : ℚ
  zOrderHint : Option ℤ
deriving DecidableEq

/-- Keys of a Python dict modelled as an association list, in insertion
order. -/
def dkeys {α : Type} (l : List (Int × α)) : List Int :=
  l.map Prod.fst

/-- Lookup in a Python dict modelled as an association list (first matching
key). -/
def dlookup {α : Type} (l : List (Int × α)) (k : Int) : Option α :=
  (l.find? (fun p => p.1 == k)).map Prod.snd

/-- Python `d[k] = v`: update in place if the key exists, append otherwise. -/
def dinsert {α : Type} (l : List (Int × α)) (k : Int) (v : α) : List (Int × α) :=
  if k ∈ dkeys l then l.map (fun p => if p.1 == k then (k, v) else p)
  else l ++ [(k, v)]

/-- Python `del d[k]` (guarded by `if k in d` at every call site, so the
unconditional filter has the same effect). -/
def derase {α : Type} (l : List (Int × α)) (k : Int) : List (Int × α) :=
  l.filter (fun p => p.1 != k)

/-- The mutable state of `CharacterInstance`
(`src/ginka_composer/models/__init__.py`). `layer_images` holds decoded images
as opaque handles. -/
structure CharacterInstance where
  instance_id : String
  character_name : String
  size : String
  layer_images : List (Int × Nat)
  composition_layers : List (Int × LayerInfo)
  layer_order : List Int
  x_offset : ℚ
  y_offset : ℚ
  scale : ℚ
  visible : Bool
  z_order : ℤ
deriving DecidableEq

/-- `ModernCharacterComposer.addLayerToInstance`: when the layer's PNG asset
file is missing (`assetExists = false`) the method warns and returns before
touching the instance; otherwise it stores the layer record in
`composition_layers` and appends the id to `layer_order` if absent. -/
def addLayerToInstance (inst : CharacterInstance) (lid : Int) (layer : LayerInfo)
    (assetExists : Bool) : CharacterInstance :=
  if !assetExists then inst
  else
    { inst with
      composition_layers := dinsert inst.composition_layers lid layer
      layer_order :=
        if lid ∈ inst.layer_order then inst.layer_order
        else inst.layer_order ++ [lid] }

/-- `ModernCharacterComposer.removeLayerFromInstance`: deletes the id from
`layer_images`, `composition_layers` and `layer_order`. -/
def removeLayerFromInstance (inst : CharacterInstance) (lid : Int) : CharacterInstance :=
  { inst with
    layer_images := derase inst.layer_images lid
    composition_layers := derase inst.composition_layers lid
    layer_order := inst.layer_order.erase lid }

/-- `ModernCharacterComposer.toggleCustomLayer`: selection appends the id to
`layer_order` if absent; deselection removes it from `layer_order` but, per the
source comment, keeps it in `composition_layers`. -/
def toggleCustomLayer (inst : CharacterInstance) (lid : Int) (isSelected : Bool) :
    CharacterInstance :=
  if isSelected then
    { inst with
      layer_order :=
        if lid ∈ inst.layer_order then inst.layer_order
        else inst.layer_order ++ [lid] }
  else
    { inst with layer_order := inst.layer_order.erase lid }

/-- Swap the elements at positions `i` and `i+1`; identity when `i+1` is out of
range (the Python swap is guarded so that never happens, or raises before any
mutation). -/
def swapAdj : List Int → Nat → List Int
  | [], _ => []
  | [a], _ => [a]
  | a :: b :: rest, 0 => b :: a :: rest
  | a :: b :: rest, i + 1 => a :: swapAdj (b :: rest) i

/-- `ModernCharacterComposer.moveLayerUp`: guarded by
`0 <= current_row < len(layer_order) - 1`, then swaps rows `row` and
`row + 1`. -/
def moveLayerUp (inst : CharacterInstance) (row : Nat) : CharacterInstance :=
  if row + 1 < inst.layer_order.length then
    { inst with layer_order := swapAdj inst.layer_order row }
  else inst

/-- `ModernCharacterComposer.moveLayerDown`: guarded by `current_row > 0`,
then swaps rows `row` and `row - 1`. A `row` beyond the end raises an
`IndexError` in Python before any element is written, leaving the list
unchanged, so the in-range condition joins the guard here. -/
def moveLayerDown (inst : CharacterInstance) (row : Nat) : CharacterInstance :=
  if 0 < row ∧ row < inst.layer_order.length then
    { inst with layer_order := swapAdj inst.layer_order (row - 1) }
  else inst

/-- `ModernCharacterComposer.moveLayerToTop`: `pop(row)` then `append`. An
out-of-range `row` raises before mutating, so the in-range condition joins the
guard. -/
def moveLayerToTop (inst : CharacterInstance) (row : Nat) : CharacterInstance :=
  if row < inst.layer_order.length then
    { inst with
      layer_order := inst.layer_order.eraseIdx row ++ [inst.layer_order.getD row 0] }
  else inst

/-- `ModernCharacterComposer.moveLayerToBottom`: `pop(row)` then
`insert(0, ...)`. -/
def moveLayerToBottom (inst : CharacterInstance) (row : Nat) : CharacterInstance :=
  if row < inst.layer_order.length then
    { inst with
      layer_order := inst.layer_order.getD row 0 :: inst.layer_order.eraseIdx row }
  else inst

/-- The insertion position computed by the loop of
`ModernCharacterComposer._insert_layer_by_z_order`: the index of the first id
whose stored layer exists and has hint (`get('z_order', 0)`) strictly greater
than `zo`; the length of the list when there is none. Ids without a stored
layer are passed over by the loop. -/
def insertPos (cl : List (Int × LayerInfo)) (zo : ℤ) : List Int → Nat
  | [] => 0
  | lid :: rest =>
    match dlookup cl lid with
    | some info => if zo < info.zOrderHint.getD 0 then 0 else insertPos cl zo rest + 1
    | none => insertPos cl zo rest + 1

/-- `ModernCharacterComposer._insert_layer_by_z_order`: remove the id if
already present, then insert it at `insertPos`. -/
def insert_layer_by_z_order (inst : CharacterInstance) (lid : Int) (zo : ℤ) :
    CharacterInstance :=
  let order := inst.layer_order.erase lid
  let pos := insertPos inst.composition_layers zo order
  { inst with layer_order := order.take pos ++ lid :: order.drop pos }

/-- The set-equality invariant claimed between `layer_order` and the keys of
`composition_layers`, together with freedom from duplicates. -/
def LayerSetInv (inst : CharacterInstance) : Prop :=
  inst.layer_order.Nodup ∧ (dkeys inst.composition_layers).Nodup ∧
  (∀ k ∈ inst.layer_order, k ∈ dkeys inst.composition_layers) ∧
  (∀ k ∈ dkeys inst.composition_layers, k ∈ inst.layer_order)

instance (inst : CharacterInstance) : Decidable (LayerSetInv inst) := by
  unfold LayerSetInv; infer_instance

/-- One entry of the draw list assembled by
`ModernCharacterComposer.renderCharactersForExport`. -/
structure RenderItem where
  image : Nat
  x : ℚ
  y : ℚ
  scale : ℚ
  layer_id : Int
  instance_id : String
deriving DecidableEq

/-- The inner loop of `renderCharactersForExport`: iterate `layer_order` and
emit an item for each id present in both `composition_layers` and
`layer_images`, with
`final = (layer_position * instance.scale + instance.offset) * multiplier
+ center` and `final_scale = instance.scale * multiplier`. -/
def instanceRenderItems (inst : CharacterInstance) (centerX centerY m : ℚ) :
    List RenderItem :=
  inst.layer_order.filterMap (fun lid =>
    match dlookup inst.composition_layers lid, dlookup inst.layer_images lid with
    | some layer, some img =>
        some
          { image := img
            x := (layer.posX * inst.scale + inst.x_offset) * m + centerX
            y := (layer.posY * inst.scale + inst.y_offset) * m + centerY
            scale := inst.scale * m
            layer_id := lid
            instance_id := inst.instance_id }
    | _, _ => none)

/-- `sorted(self.character_instances.values(), key=lambda x: x.z_order)`:
Python's `sorted` is stable, and a stable sort by a fixed key is unique, so it
equals insertion sort with the same comparator. The input list carries the
dict's insertion order. -/
def sortInstancesByZ (insts : List CharacterInstance) : List CharacterInstance :=
  List.insertionSort (fun a b => a.z_order ≤ b.z_order) insts

/-- The order in which `renderCharactersForExport` processes instances: sorted
ascending by `z_order`, invisible instances skipped by the
`if not instance.visible: continue` line. -/
def exportInstanceOrder (insts : List CharacterInstance) : List CharacterInstance :=
  (sortInstancesByZ insts).filter (fun i => i.visible)

/-- `ModernCharacterComposer.renderCharactersForExport`: the draw list for
canvas `canvasWidth × canvasHeight` at resolution multiplier `m`, with the
canvas center computed by integer floor division `canvas_width // 2`. -/
def renderCharactersForExport (insts : List CharacterInstance)
    (canvasWidth canvasHeight : Nat) (m : ℚ) : List RenderItem :=
  (exportInstanceOrder insts).flatMap (fun inst =>
    instanceRenderItems inst ((canvasWidth / 2 : Nat) : ℚ) ((canvasHeight / 2 : Nat) : ℚ) m)

/-- One character record of the persisted scene JSON written by
`ModernCharacterComposer.saveScene`. -/
structure SavedChar where
  character_name : String
  size : String
  x_offset : ℚ
  y_offset : ℚ
  scale : ℚ
  visible : Bool
  z_order : ℤ
  layers : List Int
  layer_order : List Int
deriving DecidableEq

/-- The record `saveScene` writes for one instance: `layers` is
`list(instance.composition_layers.keys())`, `layer_order` is the instance's
draw order, the transform and visibility fields are copied. -/
def saveCharData (inst : CharacterInstance) : SavedChar :=
  { character_name := inst.character_name
    size := inst.size
    x_offset := inst.x_offset
    y_offset := inst.y_offset
    scale := inst.scale
    visible := inst.visible
    z_order := inst.z_order
    layers := dkeys inst.composition_layers
    layer_order := inst.layer_order }

/-- The layer-rebuild loop of `loadScene`: for each saved id, linear-search the
catalog's flattened layer list for the first record with that `layer_id` and
insert it; ids not found in the catalog are dropped silently. -/
def buildCompositionLayers (allLayers : List (Int × LayerInfo)) (lids : List Int) :
    List (Int × LayerInfo) :=
  lids.foldl (fun acc lid =>
    match allLayers.find? (fun p => p.1 == lid) with
    | some p => dinsert acc lid p.2
    | none => acc) []

/-- Rebuilding one `CharacterInstance` from a scene record in
`ModernCharacterComposer.loadScene`. `catalog name size` is the flattened list
of catalog layers for that archetype and size (`None` when the archetype is
missing from `self.character_data`, in which case the instance keeps empty
layer state). -/
def loadCharData (catalog : String → String → Option (List (Int × LayerInfo)))
    (d : SavedChar) : CharacterInstance :=
  let base : CharacterInstance :=
    { instance_id := ""
      character_name := d.character_name
      size := d.size
      layer_images := []
      composition_layers := []
      layer_order := []
      x_offset := d.x_offset
      y_offset := d.y_offset
      scale := d.scale
      visible := d.visible
      z_order := d.z_order }
  match catalog d.character_name d.size with
  | some allLayers =>
      { base with
        composition_layers := buildCompositionLayers allLayers d.layers
        layer_order := d.layer_order }
  | none => base

/-- The character-rebuild loop of `loadScene`: records are processed in order
and appended to the scene; a malformed record (`none`) raises inside the loop,
the surrounding handler catches it, and the instances loaded so far remain. -/
def loadSceneChars (catalog : String → String → Option (List (Int × LayerInfo)))
    (acc : List CharacterInstance) :
    List (Option SavedChar) → List CharacterInstance
  | [] => acc
  | none :: _ => acc
  | some d :: rest => loadSceneChars catalog (acc ++ [loadCharData catalog d]) rest

/-- `ModernCharacterComposer.loadScene` at the scene level: `parsed = none`
models an unreadable file or malformed JSON, which raises before
`clearAllCharacters()` is called, so the previous state `st` survives; with a
parsed record list the scene is cleared first and rebuilt record by record. -/
def loadScene (st : List CharacterInstance)
    (catalog : String → String → Option (List (Int × LayerInfo)))
    (parsed : Option (List (Option SavedChar))) : List CharacterInstance :=
  match parsed with
  | none => st
  | some recs => loadSceneChars catalog [] recs

/-- `CustomComponent` (`src/ginka_composer/models/custom_component.py`),
without the lazily decoded image. -/
structure CustomComponent where
  name : String
  image_path : String
  x : ℤ
  y : ℤ
  scale : ℚ
  z_index : ℤ
  visible : Bool
deriving DecidableEq

/-- `CharacterCustomComponents`: the component list plus the auto-increment
counter `_next_z_index`. -/
structure CharacterCustomComponents where
  components : List CustomComponent
  next_z_index : ℤ
deriving DecidableEq

/-- `CharacterCustomComponents.add_component`: takes the explicit `z_index` or
the counter (incrementing it), then appends the new component
unconditionally. -/
def add_component (s : CharacterCustomComponents) (name image_path : String)
    (z : Option ℤ) : CharacterCustomComponents :=
  { components :=
      s.components ++
        [{ name := name
           image_path := image_path
           x := 0
           y := 0
           scale := 1
           z_index := z.getD s.next_z_index
           visible := true }]
    next_z_index := if z.isNone then s.next_z_index + 1 else s.next_z_index }

/-- The `complete_layer_order` computed by `CharacterInstance.to_dict`: keep
the ids of `layer_order` that are keys of `composition_layers` (first loop),
then append every key not yet present (second loop). -/
def completeLayerOrder (inst : CharacterInstance) : List Int :=
  (dkeys inst.composition_layers).foldl
    (fun acc lid => if lid ∈ acc then acc else acc ++ [lid])
    (inst.layer_order.filter (fun lid => decide (lid ∈ dkeys inst.composition_layers)))

/-- The persisted record produced by `CharacterInstance.to_dict`
(`src/ginka_composer/models/__init__.py`), with `composition_layers` keyed by
stringified ids and `layer_order` replaced by `complete_layer_order`; the
custom-components block is omitted here. -/
structure InstanceRecord where
  instance_id : String
  character_name : String
  size : String
  x_offset : ℚ
  y_offset : ℚ
  scale : ℚ
  visible : Bool
  z_order : ℤ
  layer_order : List Int
  composition_layers : List (String × LayerInfo)
deriving DecidableEq

/-- `CharacterInstance.to_dict`. -/
def to_dict (inst : CharacterInstance) : InstanceRecord :=
  { instance_id := inst.instance_id
    character_name := inst.character_name
    size := inst.size
    x_offset := inst.x_offset
    y_offset := inst.y_offset
    scale := inst.scale
    visible := inst.visible
    z_order := inst.z_order
    layer_order := completeLayerOrder inst
    composition_layers := inst.composition_layers.map (fun p => (toString p.1, p.2)) }

/-- The hint the `_insert_layer_by_z_order` loop reads for the id `k`:
`composition_layers[k].get('z_order', 0)`, or `0` when the id has no stored
layer (the loop never compares such ids). -/
def hintOf (cl : List (Int × LayerInfo)) (k : Int) : ℤ :=
  match dlookup cl k with
  | some info => info.zOrderHint.getD 0
  | none => 0

/-- Comparing instances by `z_order` is total. -/
instance : IsTotal CharacterInstance (fun a b => a.z_order ≤ b.z_order) :=
  ⟨fun a b => Int.le_total a.z_order b.z_order⟩

/-- Comparing instances by `z_order` is transitive. -/
instance : IsTrans CharacterInstance (fun a b => a.z_order ≤ b.z_order) :=
  ⟨fun _ _ _ h1 h2 => le_trans h1 h2⟩

/-- A one-archetype catalog offering layer `1` for `ginka` at size `m`. -/
def sampleCatalog : String → String → Option (List (Int × LayerInfo)) :=
  fun n s =>
    if n = "ginka" ∧ s = "m" then some [(1, { posX := 10, posY := 20, zOrderHint := none })]
    else none

/-- A small concrete instance holding one catalog layer with a decoded image,
used to evaluate the operations on explicit inputs. -/
def sampleInstance : CharacterInstance :=
  { instance_id := "i1"
    character_name := "ginka"
    size := "m"
    layer_images := [(1, 7)]
    composition_layers := [(1, { posX := 10, posY := 20, zOrderHint := none })]
    layer_order := [1]
    x_offset := 3
    y_offset := 4
    scale := 2
    visible := true
    z_order := 0 }

/-- A concrete instance holding one imported custom layer (negative id), the
state reached right after `importCustomLayer`. -/
def customLayerInstance : CharacterInstance :=
  { instance_id := "i2"
    character_name := "ginka"
    size := "m"
    layer_images := [(-1, 9)]
    composition_layers := [(-1, { posX := 0, posY := 0, zOrderHint := some 0 })]
    layer_order := [-1]
    x_offset := 0
    y_offset := 0
    scale := 1
    visible := true
    z_order := 0 }

/-- A concrete instance whose only layer sits at the local origin with identity
transform, so a rendered item lands exactly on the canvas center. -/
def originInstance : CharacterInstance :=
  { instance_id := "a"
    character_name := "ginka"
    size := "m"
    layer_images := [(1, 7)]
    composition_layers := [(1, { posX := 0, posY := 0, zOrderHint := none })]
    layer_order := [1]
    x_offset := 0
    y_offset := 0
    scale := 1
    visible := true
    z_order := 0 }

/-- The same instance as `originInstance` but carrying the larger id `"b"`,
for exercising the `z_order` tie-break. -/
def originInstanceB : CharacterInstance :=
  { originInstance with instance_id := "b" }

/-- An instance with empty layer state. -/
def emptyInstance : CharacterInstance :=
  { instance_id := "i0"
    character_name := "ginka"
    size := "m"
    layer_images := []
    composition_layers := []
    layer_order := []
    x_offset := 0
    y_offset := 0
    scale := 1
    visible := true
    z_order := 0 }

/-- An instance whose two active layers carry the stored hints `0` and `10`,
the scenario named by the specification. -/
def hintedInstance : CharacterInstance :=
  { instance_id := "i3"
    character_name := "ginka"
    size := "m"
    layer_images := []
    composition_layers :=
      [(1, { posX := 0, posY := 0, zOrderHint := some 0 }),
       (2, { posX := 0, posY := 0, zOrderHint := some 10 })]
    layer_order := [1, 2]
    x_offset := 0
    y_offset := 0
    scale := 1
    visible := true
    z_order := 0 }

/-- An instance whose in-memory `layer_order` repeats a valid key. -/
def dupOrderInstance : CharacterInstance :=
  { emptyInstance with
    composition_layers := [(1, { posX := 0, posY := 0, zOrderHint := none })]
    layer_order := [1, 1] }

/-- An instance whose `layer_order` holds a stale id (`9`) and misses the
key `2`. -/
def staleOrderInstance : CharacterInstance :=
  { emptyInstance with
    composition_layers :=
      [(1, { posX := 0, posY := 0, zOrderHint := none }),
       (2, { posX := 0, posY := 0, zOrderHint := none })]
    layer_order := [9, 1] }

/-- A saved scene record for an archetype absent from the catalog. -/
def savedB : SavedChar :=
  { character_name := "b"
    size := "m"
    x_offset := 0
    y_offset := 0
    scale := 1
    visible := true
    z_order := 0
    layers := []
    layer_order := [] }

/-- A component collection already holding a component named `"a"`. -/
def comps0 : CharacterCustomComponents :=
  { components :=
      [{ name := "a"
         image_path := "p.png"
         x := 0
         y := 0
         scale := 1
         z_index := 5
         visible := true }]
    next_z_index := 10000 }

/-! ### Association-list (Python dict) lemmas -/

theorem dkeys_dinsert_of_mem {α : Type} {l : List (Int × α)} {k : Int} (v : α)
    (h : k ∈ dkeys l) : dkeys (dinsert l k v) = dkeys l := by
  unfold dinsert
  rw [if_pos h]
  unfold dkeys
  rw [List.map_map]
  apply List.map_congr_left
  intro p _
  by_cases hp : p.1 = k
  · simp [Function.comp_def, hp]
  · simp [Function.comp_def, hp]

theorem dkeys_dinsert_of_not_mem {α : Type} {l : List (Int × α)} {k : Int} (v : α)
    (h : k ∉ dkeys l) : dkeys (dinsert l k v) = dkeys l ++ [k] := by
  unfold dinsert
  rw [if_neg h]
  simp [dkeys]

theorem nodup_dkeys_dinsert {α : Type} {l : List (Int × α)} {k : Int} (v : α)
    (h : (dkeys l).Nodup) : (dkeys (dinsert l k v)).Nodup := by
  by_cases hk : k ∈ dkeys l
  · rw [dkeys_dinsert_of_mem v hk]; exact h
  · rw [dkeys_dinsert_of_not_mem v hk]
    simp [List.nodup_append, h, hk]

theorem mem_dkeys_dinsert {α : Type} {l : List (Int × α)} {k a : Int} (v : α) :
    a ∈ dkeys (dinsert l k v) ↔ a ∈ dkeys l ∨ a = k := by
  by_cases hk : k ∈ dkeys l
  · rw [dkeys_dinsert_of_mem v hk]
    constructor
    · exact Or.inl
    · rintro (h | rfl)
      · exact h
      · exact hk
  · rw [dkeys_dinsert_of_not_mem v hk]
    simp

theorem dkeys_derase {α : Type} (l : List (Int × α)) (k : Int) :
    dkeys (derase l k) = (dkeys l).filter (fun a => a != k) := by
  induction l with
  | nil => rfl
  | cons p rest ih =>
    show dkeys (List.filter (fun q => q.1 != k) (p :: rest))
        = List.filter (fun a => a != k) (p.1 :: dkeys rest)
    rw [List.filter_cons, List.filter_cons]
    by_cases hp : (p.1 != k) = true
    · rw [if_pos hp, if_pos hp]
      exact congrArg (List.cons p.1) ih
    · rw [if_neg hp, if_neg hp]
      exact ih

theorem mem_dkeys_derase {α : Type} {l : List (Int × α)} {k a : Int} :
    a ∈ dkeys (derase l k) ↔ a ∈ dkeys l ∧ a ≠ k := by
  rw [dkeys_derase]
  simp [List.mem_filter]

theorem nodup_dkeys_derase {α : Type} {l : List (Int × α)} {k : Int}
    (h : (dkeys l).Nodup) : (dkeys (derase l k)).Nodup := by
  rw [dkeys_derase]
  exact h.filter _

theorem dlookup_isSome_of_mem {α : Type} {l : List (Int × α)} {k : Int}
    (h : k ∈ dkeys l) : (dlookup l k).isSome := by
  induction l with
  | nil => simp [dkeys] at h
  | cons p rest ih =>
    unfold dlookup
    rw [List.find?_cons]
    by_cases hp : p.1 = k
    · simp [hp]
    · have : (p.1 == k) = false := by simp [hp]
      rw [this]
      apply ih
      simp only [dkeys, List.map_cons, List.mem_cons] at h
      exact h.resolve_left (fun hh => hp hh.symm)

/-! ### Permutation lemmas for the reorder operations -/

theorem swapAdj_perm : ∀ (l : List Int) (i : Nat), (swapAdj l i).Perm l
  | [], _ => List.Perm.refl _
  | [a], _ => List.Perm.refl _
  | a :: b :: rest, 0 => List.Perm.swap a b rest
  | a :: b :: rest, i + 1 => (swapAdj_perm (b :: rest) i).cons a

theorem getD_cons_eraseIdx_perm :
    ∀ (l : List Int) (i : Nat), i < l.length → (l.getD i 0 :: l.eraseIdx i).Perm l
  | [], i, h => by simp at h
  | a :: rest, 0, _ => List.Perm.refl _
  | a :: rest, i + 1, h => by
    have hi : i < rest.length := by simpa using h
    have ih := getD_cons_eraseIdx_perm rest i hi
    have h1 : (a :: rest).getD (i + 1) 0 :: (a :: rest).eraseIdx (i + 1)
        = rest.getD i 0 :: a :: rest.eraseIdx i := by
      simp [List.getD]
    rw [h1]
    exact (List.Perm.swap a (rest.getD i 0) (rest.eraseIdx i)).trans (ih.cons a)

/-- Replacing `layer_order` by any permutation of itself preserves the
layer-set invariant. -/
theorem LayerSetInv.withOrder {inst : CharacterInstance} (h : LayerSetInv inst)
    {ord : List Int} (hp : ord.Perm inst.layer_order) :
    LayerSetInv { inst with layer_order := ord } := by
  obtain ⟨h1, h2, h3, h4⟩ := h
  exact ⟨hp.nodup_iff.mpr h1, h2, fun k hk => h3 k (hp.mem_iff.mp hk),
    fun k hk => hp.mem_iff.mpr (h4 k hk)⟩

/-! ### Claim C1 -/

/-- Claim C1 is refuted by `toggleCustomLayer` deselection: starting from a
custom-layer state satisfying the set equality, deselecting the custom layer
removes `-1` from `layer_order` while (per the source comment) keeping it in
`composition_layers`, so the set of ids in `layer_order` no longer equals the
key set. -/
theorem toggleCustomLayer_breaks_layer_set_equality :
    LayerSetInv customLayerInstance ∧
    (toggleCustomLayer customLayerInstance (-1) false).layer_order = [] ∧
    (-1 : Int) ∈ dkeys (toggleCustomLayer customLayerInstance (-1) false).composition_layers := by
  decide

/-- Claim C1 (amended): from a state where `layer_order` and the keys of
`composition_layers` agree as duplicate-free sets, any single
`addLayerToInstance`, `removeLayerFromInstance`,
`moveLayerUp`/`Down`/`ToTop`/`ToBottom`, or `toggleCustomLayer` selection of an
id already in `composition_layers` preserves that equality; `toggleCustomLayer`
deselection only keeps `layer_order` duplicate-free with its ids a subset of
the keys, since the deselected id stays in `composition_layers`. -/
theorem layer_order_key_set_preservation (inst : CharacterInstance)
    (h : LayerSetInv inst) :
    (∀ lid layer assetExists, LayerSetInv (addLayerToInstance inst lid layer assetExists)) ∧
    (∀ lid, LayerSetInv (removeLayerFromInstance inst lid)) ∧
    (∀ lid, lid ∈ dkeys inst.composition_layers →
      LayerSetInv (toggleCustomLayer inst lid true)) ∧
    (∀ lid,
      (toggleCustomLayer inst lid false).layer_order.Nodup ∧
      ∀ k ∈ (toggleCustomLayer inst lid false).layer_order,
        k ∈ dkeys (toggleCustomLayer inst lid false).composition_layers) ∧
    (∀ row, LayerSetInv (moveLayerUp inst row)) ∧
    (∀ row, LayerSetInv (moveLayerDown inst row)) ∧
    (∀ row, LayerSetInv (moveLayerToTop inst row)) ∧
    (∀ row, LayerSetInv (moveLayerToBottom inst row)) := by
  obtain ⟨hno, hnk, hok, hko⟩ := h
  refine ⟨?_, ?_, ?_, ?_, ?_, ?_, ?_, ?_⟩
  · -- addLayerToInstance
    intro lid layer assetExists
    cases assetExists with
    | false => exact ⟨hno, hnk, hok, hko⟩
    | true =>
      show LayerSetInv
        { inst with
          composition_layers := dinsert inst.composition_layers lid layer
          layer_order :=
            if lid ∈ inst.layer_order then inst.layer_order
            else inst.layer_order ++ [lid] }
      by_cases hmem : lid ∈ inst.layer_order
      · rw [if_pos hmem]
        refine ⟨hno, nodup_dkeys_dinsert layer hnk, ?_, ?_⟩
        · intro k hk
          exact (mem_dkeys_dinsert layer).mpr (Or.inl (hok k hk))
        · intro k hk
          rcases (mem_dkeys_dinsert layer).mp hk with hk0 | rfl
          · exact hko k hk0
          · exact hmem
      · rw [if_neg hmem]
        refine ⟨?_, nodup_dkeys_dinsert layer hnk, ?_, ?_⟩
        · simp [List.nodup_append, hno, hmem]
        · intro k hk
          rcases List.mem_append.mp hk with hk0 | hk1
          · exact (mem_dkeys_dinsert layer).mpr (Or.inl (hok k hk0))
          · exact (mem_dkeys_dinsert layer).mpr (Or.inr (List.mem_singleton.mp hk1))
        · intro k hk
          rcases (mem_dkeys_dinsert layer).mp hk with hk0 | rfl
          · exact List.mem_append_left _ (hko k hk0)
          · exact List.mem_append_right _ (List.mem_singleton.mpr rfl)
  · -- removeLayerFromInstance
    intro lid
    refine ⟨hno.erase lid, nodup_dkeys_derase hnk, ?_, ?_⟩
    · intro k hk
      obtain ⟨hne, hmem⟩ := (List.Nodup.mem_erase_iff hno).mp hk
      exact mem_dkeys_derase.mpr ⟨hok k hmem, hne⟩
    · intro k hk
      obtain ⟨hmem, hne⟩ := mem_dkeys_derase.mp hk
      exact (List.Nodup.mem_erase_iff hno).mpr ⟨hne, hko k hmem⟩
  · -- toggleCustomLayer, selection of an id already among the keys
    intro lid hkeys
    show LayerSetInv
      { inst with
        layer_order :=
          if lid ∈ inst.layer_order then inst.layer_order
          else inst.layer_order ++ [lid] }
    by_cases hmem : lid ∈ inst.layer_order
    · rw [if_pos hmem]
      exact ⟨hno, hnk, hok, hko⟩
    · rw [if_neg hmem]
      refine ⟨?_, hnk, ?_, ?_⟩
      · simp [List.nodup_append, hno, hmem]
      · intro k hk
        rcases List.mem_append.mp hk with hk0 | hk1
        · exact hok k hk0
        · rw [List.mem_singleton.mp hk1]
          exact hkeys
      · intro k hk
        exact List.mem_append_left _ (hko k hk)
  · -- toggleCustomLayer deselection: only nodup plus subset survives
    intro lid
    refine ⟨hno.erase lid, ?_⟩
    intro k hk
    exact hok k (List.mem_of_mem_erase hk)
  · -- moveLayerUp
    intro row
    unfold moveLayerUp
    by_cases hc : row + 1 < inst.layer_order.length
    · rw [if_pos hc]
      exact LayerSetInv.withOrder ⟨hno, hnk, hok, hko⟩ (swapAdj_perm _ _)
    · rw [if_neg hc]
      exact ⟨hno, hnk, hok, hko⟩
  · -- moveLayerDown
    intro row
    unfold moveLayerDown
    by_cases hc : 0 < row ∧ row < inst.layer_order.length
    · rw [if_pos hc]
      exact LayerSetInv.withOrder ⟨hno, hnk, hok, hko⟩ (swapAdj_perm _ _)
    · rw [if_neg hc]
      exact ⟨hno, hnk, hok, hko⟩
  · -- moveLayerToTop
    intro row
    unfold moveLayerToTop
    by_cases hc : row < inst.layer_order.length
    · rw [if_pos hc]
      exact LayerSetInv.withOrder ⟨hno, hnk, hok, hko⟩
        ((List.perm_append_singleton _ _).trans (getD_cons_eraseIdx_perm _ row hc))
    · rw [if_neg hc]
      exact ⟨hno, hnk, hok, hko⟩
  · -- moveLayerToBottom
    intro row
    unfold moveLayerToBottom
    by_cases hc : row < inst.layer_order.length
    · rw [if_pos hc]
      exact LayerSetInv.withOrder ⟨hno, hnk, hok, hko⟩ (getD_cons_eraseIdx_perm _ row hc)
    · rw [if_neg hc]
      exact ⟨hno, hnk, hok, hko⟩

/-- Witness for the amended claim C1 at a concrete one-layer instance. -/
theorem layer_order_key_set_preservation_witness :
    LayerSetInv sampleInstance ∧
    ((∀ lid layer assetExists,
        LayerSetInv (addLayerToInstance sampleInstance lid layer assetExists)) ∧
     (∀ lid, LayerSetInv (removeLayerFromInstance sampleInstance lid)) ∧
     (∀ lid, lid ∈ dkeys sampleInstance.composition_layers →
        LayerSetInv (toggleCustomLayer sampleInstance lid true)) ∧
     (∀ lid,
        (toggleCustomLayer sampleInstance lid false).layer_order.Nodup ∧
        ∀ k ∈ (toggleCustomLayer sampleInstance lid false).layer_order,
          k ∈ dkeys (toggleCustomLayer sampleInstance lid false).composition_layers) ∧
     (∀ row, LayerSetInv (moveLayerUp sampleInstance row)) ∧
     (∀ row, LayerSetInv (moveLayerDown sampleInstance row)) ∧
     (∀ row, LayerSetInv (moveLayerToTop sampleInstance row)) ∧
     (∀ row, LayerSetInv (moveLayerToBottom sampleInstance row))) :=
  ⟨by decide, layer_order_key_set_preservation sampleInstance (by decide)⟩

/-! ### Claim C6 -/

/-- Claim C6 is refuted: `addLayerToInstance` checks `os.path.exists` first and
returns after a warning dialog when the asset file is missing, so the layer is
not inserted and the state stays exactly as it was. -/
theorem addLayer_missing_asset_counterexample :
    addLayerToInstance emptyInstance 5 { posX := 0, posY := 0, zOrderHint := none } false
      = emptyInstance ∧
    (5 : Int) ∉ dkeys (addLayerToInstance emptyInstance 5
      { posX := 0, posY := 0, zOrderHint := none } false).composition_layers ∧
    (5 : Int) ∉ (addLayerToInstance emptyInstance 5
      { posX := 0, posY := 0, zOrderHint := none } false).layer_order := by
  decide

/-- Claim C6 (amended): selecting a catalog layer whose image asset file is
missing is rejected up front (warning dialog, early return): the instance is
left completely unchanged and the layer is not inserted; only when the asset
exists does the selection insert the layer into `composition_layers` and
`layer_order`. -/
theorem addLayerToInstance_missing_asset_rejects (inst : CharacterInstance)
    (lid : Int) (layer : LayerInfo) :
    addLayerToInstance inst lid layer false = inst ∧
    lid ∈ dkeys (addLayerToInstance inst lid layer true).composition_layers ∧
    lid ∈ (addLayerToInstance inst lid layer true).layer_order := by
  refine ⟨rfl, ?_, ?_⟩
  · show lid ∈ dkeys (dinsert inst.composition_layers lid layer)
    exact (mem_dkeys_dinsert layer).mpr (Or.inr rfl)
  · show lid ∈
      (if lid ∈ inst.layer_order then inst.layer_order else inst.layer_order ++ [lid])
    by_cases hmem : lid ∈ inst.layer_order
    · rw [if_pos hmem]; exact hmem
    · rw [if_neg hmem]
      exact List.mem_append_right _ (List.mem_singleton.mpr rfl)

/-! ### Claim C8 -/

/-- Claim C8 is refuted: `add_component` performs no duplicate-name check, so
adding a component named `"a"` to a collection that already has one succeeds,
changes the collection, and leaves two components sharing the name. -/
theorem add_component_duplicate_name_counterexample :
    (add_component comps0 "a" "q.png" none).components.map CustomComponent.name
      = ["a", "a"] ∧
    (add_component comps0 "a" "q.png" none).components ≠ comps0.components ∧
    ¬ ((add_component comps0 "a" "q.png" none).components.map CustomComponent.name).Nodup := by
  decide

/-- Claim C8 (amended): `add_component` appends unconditionally — it never
rejects a duplicate name; the new component carries the requested or
auto-assigned `z_index`, and the number of components bearing the given name
always grows by one. -/
theorem add_component_appends_unconditionally (s : CharacterCustomComponents)
    (nm path : String) (z : Option ℤ) :
    (add_component s nm path z).components
      = s.components ++
        [{ name := nm, image_path := path, x := 0, y := 0, scale := 1,
           z_index := z.getD s.next_z_index, visible := true }] ∧
    ((add_component s nm path z).components.map CustomComponent.name).count nm
      = (s.components.map CustomComponent.name).count nm + 1 := by
  refine ⟨rfl, ?_⟩
  show ((s.components ++ [_]).map CustomComponent.name).count nm = _
  rw [List.map_append, List.count_append]
  simp

/-! ### Claim C10 -/

/-- The append-missing loop of `to_dict`: with duplicate-free `keys`, folding
over `keys` appends exactly those keys not already in the accumulator, in key
order. -/
theorem foldl_append_missing (base : List Int) :
    ∀ keys : List Int, keys.Nodup →
      keys.foldl (fun acc lid => if lid ∈ acc then acc else acc ++ [lid]) base
        = base ++ keys.filter (fun lid => decide (lid ∉ base))
  | [], _ => by simp
  | k :: rest, hk => by
    obtain ⟨hkr, hrn⟩ := List.nodup_cons.mp hk
    rw [List.foldl_cons]
    by_cases hkb : k ∈ base
    · rw [if_pos hkb, foldl_append_missing base rest hrn, List.filter_cons]
      simp [hkb]
    · rw [if_neg hkb, foldl_append_missing (base ++ [k]) rest hrn, List.filter_cons]
      have hfeq : rest.filter (fun lid => decide (lid ∉ base ++ [k]))
          = rest.filter (fun lid => decide (lid ∉ base)) := by
        apply List.filter_congr
        intro x hx
        have hxk : x ≠ k := fun hh => hkr (hh ▸ hx)
        simp [List.mem_append, hxk]
      rw [hfeq]
      simp [hkb]

/-- Claim C10 is refuted: when the in-memory `layer_order` repeats a valid key,
the first loop of `to_dict` copies both occurrences, so the produced
`layer_order` field contains duplicates. -/
theorem to_dict_duplicate_counterexample :
    (to_dict dupOrderInstance).layer_order = [1, 1] ∧
    ¬ (to_dict dupOrderInstance).layer_order.Nodup := by
  decide

/-- Claim C10 (amended): provided the in-memory `layer_order` is
duplicate-free (as the dict keys always are), the `layer_order` field produced
by `to_dict` contains exactly the keys of `composition_layers` with no
duplicates: stale ids are filtered out and missing keys are appended at the
end in `composition_layers` key order. -/
theorem to_dict_layer_order_complete (inst : CharacterInstance)
    (hno : inst.layer_order.Nodup) (hnk : (dkeys inst.composition_layers).Nodup) :
    (to_dict inst).layer_order.Nodup ∧
    (∀ k ∈ (to_dict inst).layer_order, k ∈ dkeys inst.composition_layers) ∧
    (∀ k ∈ dkeys inst.composition_layers, k ∈ (to_dict inst).layer_order) ∧
    (to_dict inst).layer_order
      = inst.layer_order.filter (fun lid => decide (lid ∈ dkeys inst.composition_layers))
        ++ (dkeys inst.composition_layers).filter
            (fun lid => decide (lid ∉ inst.layer_order)) := by
  have hmain : completeLayerOrder inst
      = inst.layer_order.filter (fun lid => decide (lid ∈ dkeys inst.composition_layers))
        ++ (dkeys inst.composition_layers).filter
            (fun lid => decide (lid ∉ inst.layer_order)) := by
    unfold completeLayerOrder
    rw [foldl_append_missing _ _ hnk]
    congr 1
    apply List.filter_congr
    intro x hx
    have hiff :
        x ∈ inst.layer_order.filter
          (fun lid => decide (lid ∈ dkeys inst.composition_layers))
          ↔ x ∈ inst.layer_order := by
      simp [List.mem_filter, hx]
    exact decide_eq_decide.mpr (not_congr hiff)
  have hord : (to_dict inst).layer_order = completeLayerOrder inst := rfl
  refine ⟨?_, ?_, ?_, hord.trans hmain⟩
  · rw [hord, hmain]
    refine List.Nodup.append (hno.filter _) (hnk.filter _) ?_
    intro a ha hb
    have h1 : a ∈ inst.layer_order := (List.mem_filter.mp ha).1
    have h2 : a ∉ inst.layer_order := by simpa using (List.mem_filter.mp hb).2
    exact h2 h1
  · intro k hk
    rw [hord, hmain] at hk
    rcases List.mem_append.mp hk with h1 | h2
    · simpa using (List.mem_filter.mp h1).2
    · exact (List.mem_filter.mp h2).1
  · intro k hk
    rw [hord, hmain]
    by_cases hko2 : k ∈ inst.layer_order
    · exact List.mem_append_left _ (List.mem_filter.mpr ⟨hko2, by simpa using hk⟩)
    · exact List.mem_append_right _ (List.mem_filter.mpr ⟨hk, by simpa using hko2⟩)

/-- Witness for the amended claim C10 at an instance with a stale id and a
missing key. -/
theorem to_dict_layer_order_complete_witness :
    staleOrderInstance.layer_order.Nodup ∧
    (dkeys staleOrderInstance.composition_layers).Nodup ∧
    ((to_dict staleOrderInstance).layer_order.Nodup ∧
     (∀ k ∈ (to_dict staleOrderInstance).layer_order,
        k ∈ dkeys staleOrderInstance.composition_layers) ∧
     (∀ k ∈ dkeys staleOrderInstance.composition_layers,
        k ∈ (to_dict staleOrderInstance).layer_order) ∧
     (to_dict staleOrderInstance).layer_order
       = staleOrderInstance.layer_order.filter
           (fun lid => decide (lid ∈ dkeys staleOrderInstance.composition_layers))
         ++ (dkeys staleOrderInstance.composition_layers).filter
             (fun lid => decide (lid ∉ staleOrderInstance.layer_order))) :=
  ⟨by decide, by decide, to_dict_layer_order_complete staleOrderInstance (by decide) (by decide)⟩

/-! ### Claim C9 -/

theorem insertPos_le_length (cl : List (Int × LayerInfo)) (zo : ℤ) :
    ∀ order : List Int, insertPos cl zo order ≤ order.length
  | [] => Nat.le_refl 0
  | lid :: rest => by
    unfold insertPos
    cases hl : dlookup cl lid with
    | some info =>
      by_cases hz : zo < info.zOrderHint.getD 0
      · simp [hz]
      · simp only [hz, if_neg, if_false, List.length_cons]
        exact Nat.succ_le_succ (insertPos_le_length cl zo rest)
    | none =>
      simp only [List.length_cons]
      exact Nat.succ_le_succ (insertPos_le_length cl zo rest)

theorem insertPos_hint_le (cl : List (Int × LayerInfo)) (zo : ℤ) :
    ∀ order : List Int, (∀ k ∈ order, (dlookup cl k).isSome) →
      ∀ j < insertPos cl zo order, hintOf cl (order.getD j 0) ≤ zo
  | [], _, j, hj => by simp [insertPos] at hj
  | lid :: rest, hall, j, hj => by
    obtain ⟨info, hl⟩ :=
      Option.isSome_iff_exists.mp (hall lid (List.mem_cons_self _ _))
    unfold insertPos at hj
    simp only [hl] at hj
    by_cases hz : zo < info.zOrderHint.getD 0
    · rw [if_pos hz] at hj
      exact absurd hj (Nat.not_lt_zero j)
    · rw [if_neg hz] at hj
      cases j with
      | zero =>
        show hintOf cl lid ≤ zo
        unfold hintOf
        rw [hl]
        exact Int.not_lt.mp hz
      | succ j2 =>
        have hj2 : j2 < insertPos cl zo rest := Nat.lt_of_succ_lt_succ hj
        have := insertPos_hint_le cl zo rest
          (fun k hk => hall k (List.mem_cons_of_mem _ hk)) j2 hj2
        simpa [List.getD] using this

theorem insertPos_hint_gt (cl : List (Int × LayerInfo)) (zo : ℤ) :
    ∀ order : List Int, (∀ k ∈ order, (dlookup cl k).isSome) →
      insertPos cl zo order < order.length →
      zo < hintOf cl (order.getD (insertPos cl zo order) 0)
  | [], _, hlt => by simp [insertPos] at hlt
  | lid :: rest, hall, hlt => by
    obtain ⟨info, hl⟩ :=
      Option.isSome_iff_exists.mp (hall lid (List.mem_cons_self _ _))
    unfold insertPos at hlt ⊢
    simp only [hl] at hlt ⊢
    by_cases hz : zo < info.zOrderHint.getD 0
    · rw [if_pos hz] at hlt ⊢
      show zo < hintOf cl lid
      unfold hintOf
      rw [hl]
      exact hz
    · rw [if_neg hz] at hlt ⊢
      have hlt2 : insertPos cl zo rest < rest.length := by
        simpa using Nat.lt_of_succ_lt_succ hlt
      have := insertPos_hint_gt cl zo rest
        (fun k hk => hall k (List.mem_cons_of_mem _ hk)) hlt2
      simpa [List.getD] using this

/-- Claim C9: inserting a custom layer with z-order hint `zo` into an instance
(whose draw-order ids all have stored layers, and which does not already hold
the new id) places the id immediately before the first existing layer whose
stored hint (`get('z_order', 0)`, so missing hints count as `0`) is strictly
greater than `zo`, and at the end if no such layer exists: every id before the
insertion point has hint at most `zo`, and the id at the insertion point — when
one exists — has hint strictly greater than `zo`. -/
theorem insert_layer_by_z_order_spec (inst : CharacterInstance) (lid : Int) (zo : ℤ)
    (hnot : lid ∉ inst.layer_order)
    (hall : ∀ k ∈ inst.layer_order, (dlookup inst.composition_layers k).isSome) :
    (insert_layer_by_z_order inst lid zo).layer_order
      = inst.layer_order.take (insertPos inst.composition_layers zo inst.layer_order)
        ++ lid :: inst.layer_order.drop (insertPos inst.composition_layers zo inst.layer_order) ∧
    insertPos inst.composition_layers zo inst.layer_order ≤ inst.layer_order.length ∧
    (∀ j < insertPos inst.composition_layers zo inst.layer_order,
      hintOf inst.composition_layers (inst.layer_order.getD j 0) ≤ zo) ∧
    (insertPos inst.composition_layers zo inst.layer_order < inst.layer_order.length →
      zo < hintOf inst.composition_layers
        (inst.layer_order.getD (insertPos inst.composition_layers zo inst.layer_order) 0)) := by
  have he : inst.layer_order.erase lid = inst.layer_order := List.erase_of_not_mem hnot
  refine ⟨?_, insertPos_le_length _ _ _, insertPos_hint_le _ _ _ hall,
    insertPos_hint_gt _ _ _ hall⟩
  show (inst.layer_order.erase lid).take
        (insertPos inst.composition_layers zo (inst.layer_order.erase lid))
      ++ lid :: (inst.layer_order.erase lid).drop
        (insertPos inst.composition_layers zo (inst.layer_order.erase lid))
    = _
  rw [he]

/-- Witness for claim C9: the named scenario — existing hints `[0, 10]`, a new
custom layer with hint `5` lands between them. -/
theorem insert_layer_by_z_order_witness :
    ((-1 : Int) ∉ hintedInstance.layer_order) ∧
    (∀ k ∈ hintedInstance.layer_order,
      (dlookup hintedInstance.composition_layers k).isSome) ∧
    (insert_layer_by_z_order hintedInstance (-1) 5).layer_order = [1, -1, 2] := by
  refine ⟨by decide, by decide, ?_⟩
  have h := (insert_layer_by_z_order_spec hintedInstance (-1) 5 (by decide) (by decide)).1
  rw [h]
  decide

/-! ### Claim C5 -/

theorem dkeys_buildCompositionLayers_aux (allLayers : List (Int × LayerInfo)) :
    ∀ (lids : List Int) (acc : List (Int × LayerInfo)),
      (∀ lid ∈ lids, (allLayers.find? (fun p => p.1 == lid)).isSome) →
      lids.Nodup → (∀ lid ∈ lids, lid ∉ dkeys acc) →
      dkeys (lids.foldl (fun acc lid =>
        match allLayers.find? (fun p => p.1 == lid) with
        | some p => dinsert acc lid p.2
        | none => acc) acc) = dkeys acc ++ lids
  | [], acc, _, _, _ => by simp
  | lid :: rest, acc, hfound, hnd, hnin => by
    rw [List.foldl_cons]
    obtain ⟨hl, hrest⟩ := List.nodup_cons.mp hnd
    obtain ⟨p, hp⟩ :=
      Option.isSome_iff_exists.mp (hfound lid (List.mem_cons_self _ _))
    simp only [hp]
    have hlacc : lid ∉ dkeys acc := hnin lid (List.mem_cons_self _ _)
    have hnin2 : ∀ x ∈ rest, x ∉ dkeys (dinsert acc lid p.2) := by
      intro x hx
      rw [dkeys_dinsert_of_not_mem _ hlacc]
      intro hmem
      rcases List.mem_append.mp hmem with h1 | h2
      · exact hnin x (List.mem_cons_of_mem _ hx) h1
      · exact hl ((List.mem_singleton.mp h2) ▸ hx)
    rw [dkeys_buildCompositionLayers_aux allLayers rest (dinsert acc lid p.2)
        (fun x hx => hfound x (List.mem_cons_of_mem _ hx)) hrest hnin2,
      dkeys_dinsert_of_not_mem _ hlacc, List.append_assoc]
    rfl

/-- With every saved id found in the catalog and no duplicate ids, the rebuilt
`composition_layers` has exactly the saved ids as keys, in order. -/
theorem buildCompositionLayers_keys (allLayers : List (Int × LayerInfo))
    (lids : List Int)
    (hfound : ∀ lid ∈ lids, (allLayers.find? (fun p => p.1 == lid)).isSome)
    (hnd : lids.Nodup) :
    dkeys (buildCompositionLayers allLayers lids) = lids := by
  unfold buildCompositionLayers
  have h := dkeys_buildCompositionLayers_aux allLayers lids [] hfound hnd
    (by intro lid _ h; simp [dkeys] at h)
  simpa using h

/-- When the archetype and size are present in the catalog, `loadScene` builds
the instance from the saved transform fields, the rebuilt layers and the saved
draw order. -/
theorem loadCharData_found
    (catalog : String → String → Option (List (Int × LayerInfo)))
    (d : SavedChar) (allLayers : List (Int × LayerInfo))
    (hcat : catalog d.character_name d.size = some allLayers) :
    loadCharData catalog d =
      { instance_id := ""
        character_name := d.character_name
        size := d.size
        layer_images := []
        composition_layers := buildCompositionLayers allLayers d.layers
        layer_order := d.layer_order
        x_offset := d.x_offset
        y_offset := d.y_offset
        scale := d.scale
        visible := d.visible
        z_order := d.z_order } := by
  unfold loadCharData
  rw [hcat]

/-- Claim C5: saving an instance to the scene JSON form and loading it back
against a catalog that still offers all of its layer ids reproduces the
`composition_layers` key set (here even the key list), the `layer_order`
sequence, and the transform, visibility and z-order fields. -/
theorem scene_save_load_round_trip
    (catalog : String → String → Option (List (Int × LayerInfo)))
    (inst : CharacterInstance) (allLayers : List (Int × LayerInfo))
    (hnk : (dkeys inst.composition_layers).Nodup)
    (hcat : catalog inst.character_name inst.size = some allLayers)
    (hfound : ∀ lid ∈ dkeys inst.composition_layers,
      (allLayers.find? (fun p => p.1 == lid)).isSome) :
    dkeys (loadCharData catalog (saveCharData inst)).composition_layers
        = dkeys inst.composition_layers ∧
    (loadCharData catalog (saveCharData inst)).layer_order = inst.layer_order ∧
    (loadCharData catalog (saveCharData inst)).x_offset = inst.x_offset ∧
    (loadCharData catalog (saveCharData inst)).y_offset = inst.y_offset ∧
    (loadCharData catalog (saveCharData inst)).scale = inst.scale ∧
    (loadCharData catalog (saveCharData inst)).visible = inst.visible ∧
    (loadCharData catalog (saveCharData inst)).z_order = inst.z_order := by
  rw [loadCharData_found catalog (saveCharData inst) allLayers hcat]
  exact ⟨buildCompositionLayers_keys allLayers _ hfound hnk, rfl, rfl, rfl, rfl, rfl, rfl⟩

/-- Witness for claim C5 at a concrete instance and catalog. -/
theorem scene_save_load_round_trip_witness :
    (dkeys sampleInstance.composition_layers).Nodup ∧
    sampleCatalog sampleInstance.character_name sampleInstance.size
      = some [(1, { posX := 10, posY := 20, zOrderHint := none })] ∧
    (∀ lid ∈ dkeys sampleInstance.composition_layers,
      (([(1, { posX := 10, posY := 20, zOrderHint := none })] :
          List (Int × LayerInfo)).find? (fun p => p.1 == lid)).isSome) ∧
    (dkeys (loadCharData sampleCatalog (saveCharData sampleInstance)).composition_layers
        = dkeys sampleInstance.composition_layers ∧
     (loadCharData sampleCatalog (saveCharData sampleInstance)).layer_order
        = sampleInstance.layer_order ∧
     (loadCharData sampleCatalog (saveCharData sampleInstance)).x_offset
        = sampleInstance.x_offset ∧
     (loadCharData sampleCatalog (saveCharData sampleInstance)).y_offset
        = sampleInstance.y_offset ∧
     (loadCharData sampleCatalog (saveCharData sampleInstance)).scale
        = sampleInstance.scale ∧
     (loadCharData sampleCatalog (saveCharData sampleInstance)).visible
        = sampleInstance.visible ∧
     (loadCharData sampleCatalog (saveCharData sampleInstance)).z_order
        = sampleInstance.z_order) :=
  ⟨by decide, by decide, by decide,
    scene_save_load_round_trip sampleCatalog sampleInstance
      [(1, { posX := 10, posY := 20, zOrderHint := none })]
      (by decide) (by decide) (by decide)⟩

/-! ### Claim C7 -/

theorem loadSceneChars_stops
    (catalog : String → String → Option (List (Int × LayerInfo))) :
    ∀ (recs : List SavedChar) (acc : List CharacterInstance)
      (rest : List (Option SavedChar)),
      loadSceneChars catalog acc (recs.map some ++ none :: rest)
        = acc ++ recs.map (loadCharData catalog)
  | [], acc, rest => by simp [loadSceneChars]
  | d :: ds, acc, rest => by
    simp only [List.map_cons, List.cons_append, loadSceneChars, List.append_eq]
    rw [loadSceneChars_stops catalog ds (acc ++ [loadCharData catalog d]) rest]
    simp

/-- Claim C7 is refuted for mid-list failures: loading a scene whose second
character record is malformed first clears the previous state, then loads the
first record; the caught exception leaves that partially rebuilt scene, not the
state from before the load. -/
theorem loadScene_partial_failure_counterexample :
    loadScene [emptyInstance] (fun _ _ => none) (some [some savedB, none])
      ≠ [emptyInstance] ∧
    (loadScene [emptyInstance] (fun _ _ => none) (some [some savedB, none])).map
        CharacterInstance.character_name = ["b"] := by
  decide

/-- Claim C7 (amended): if the scene file is unreadable or its JSON is
malformed, the failure happens before `clearAllCharacters()`, so the previous
in-memory state is left exactly as it was; but a malformed character record
encountered partway through the characters list leaves the scene cleared and
replaced by the records loaded before the failure. -/
theorem loadScene_failure_semantics
    (catalog : String → String → Option (List (Int × LayerInfo))) :
    (∀ st : List CharacterInstance, loadScene st catalog none = st) ∧
    (∀ (st : List CharacterInstance) (recs : List SavedChar)
        (rest : List (Option SavedChar)),
      loadScene st catalog (some (recs.map some ++ none :: rest))
        = recs.map (loadCharData catalog)) := by
  refine ⟨fun st => rfl, fun st recs rest => ?_⟩
  show loadSceneChars catalog [] (recs.map some ++ none :: rest) = _
  rw [loadSceneChars_stops catalog recs [] rest]
  simp

/-! ### Claim C2 -/

/-- Claim C2 is refuted at an odd canvas width: the code adds
`canvas_width // 2` (integer floor division), not half the width. For a 3×3
canvas at multiplier 1 with a layer at the local origin and identity transform,
the produced `x` is `1`, while the claimed formula with
`canvas_center_x = 3 / 2` predicts `3 / 2`. -/
theorem render_center_floor_counterexample :
    (renderCharactersForExport [originInstance] 3 3 1).map RenderItem.x = [1] ∧
    (1 : ℚ) ≠ ((0 * 1 + 0) * 1 + 3 / 2 : ℚ) := by
  constructor
  · show ((exportInstanceOrder [originInstance]).flatMap (fun inst =>
      instanceRenderItems inst ((3 / 2 : Nat) : ℚ) ((3 / 2 : Nat) : ℚ) 1)).map
        RenderItem.x = [1]
    norm_num [exportInstanceOrder, sortInstancesByZ, List.insertionSort,
      List.orderedInsert, instanceRenderItems, originInstance, dlookup, List.find?,
      List.filterMap_cons, List.filterMap_nil]
  · norm_num

/-- Claim C2 (amended): for every visible instance and every id of its draw
order present in both `composition_layers` and `layer_images`, the export
render item carries
`final = (layer_position * instance.scale + instance.offset) * m + ⌊canvas/2⌋`
and `final_scale = instance.scale * m`, where the canvas center is the integer
floor half of the target canvas width/height (equal to exact half whenever the
dimension is even). -/
theorem renderCharactersForExport_item_formula
    (insts : List CharacterInstance) (inst : CharacterInstance)
    (hmem : inst ∈ insts) (hvis : inst.visible = true)
    (lid : Int) (layer : LayerInfo) (img : Nat)
    (hord : lid ∈ inst.layer_order)
    (hcl : dlookup inst.composition_layers lid = some layer)
    (him : dlookup inst.layer_images lid = some img)
    (w h : Nat) (m : ℚ) :
    ({ image := img
       x := (layer.posX * inst.scale + inst.x_offset) * m + ((w / 2 : Nat) : ℚ)
       y := (layer.posY * inst.scale + inst.y_offset) * m + ((h / 2 : Nat) : ℚ)
       scale := inst.scale * m
       layer_id := lid
       instance_id := inst.instance_id } : RenderItem)
      ∈ renderCharactersForExport insts w h m := by
  unfold renderCharactersForExport
  apply List.mem_flatMap.mpr
  refine ⟨inst, ?_, ?_⟩
  · unfold exportInstanceOrder sortInstancesByZ
    apply List.mem_filter.mpr
    refine ⟨?_, by rw [hvis]⟩
    rw [List.mem_insertionSort]
    exact hmem
  · unfold instanceRenderItems
    apply List.mem_filterMap.mpr
    refine ⟨lid, hord, ?_⟩
    rw [hcl, him]

/-- Witness for the amended claim C2 at a concrete scene, canvas and
multiplier. -/
theorem renderCharactersForExport_item_formula_witness :
    originInstance ∈ [originInstance] ∧
    originInstance.visible = true ∧
    (1 : Int) ∈ originInstance.layer_order ∧
    dlookup originInstance.composition_layers 1
      = some { posX := 0, posY := 0, zOrderHint := none } ∧
    dlookup originInstance.layer_images 1 = some 7 ∧
    ({ image := 7
       x := ((0 : ℚ) * originInstance.scale + originInstance.x_offset) * 3
         + ((2 / 2 : Nat) : ℚ)
       y := ((0 : ℚ) * originInstance.scale + originInstance.y_offset) * 3
         + ((2 / 2 : Nat) : ℚ)
       scale := originInstance.scale * 3
       layer_id := 1
       instance_id := originInstance.instance_id } : RenderItem)
      ∈ renderCharactersForExport [originInstance] 2 2 3 :=
  ⟨by decide, by decide, by decide, by decide, by decide,
    renderCharactersForExport_item_formula [originInstance] originInstance
      (by decide) (by decide) 1 { posX := 0, posY := 0, zOrderHint := none } 7
      (by decide) (by decide) (by decide) 2 2 3⟩

/-! ### Claim C3 -/

/-- Claim C3 is refuted in its tie-break part: the same two visible instances
with equal `z_order` and ids `"b"`, `"a"` are processed in whichever order the
`character_instances` dict holds them — Python's stable `sorted` keeps
insertion order on ties — so no `instance_id`-based tie-break exists (the claim
would force the `"a"` instance first in both runs). -/
theorem export_tie_break_counterexample :
    originInstanceB.z_order = originInstance.z_order ∧
    (renderCharactersForExport [originInstanceB, originInstance] 2 2 1).map
        RenderItem.instance_id = ["b", "a"] ∧
    (renderCharactersForExport [originInstance, originInstanceB] 2 2 1).map
        RenderItem.instance_id = ["a", "b"] := by
  decide

/-- Filtering by a predicate that only selects instances of one fixed `z_order`
value commutes with ordered insertion: the skipped elements all have strictly
smaller `z_order` than the inserted one, hence fail the predicate when the
inserted element satisfies it. -/
theorem filter_sel_orderedInsert (c : ℤ) (p : CharacterInstance → Bool)
    (hp : ∀ x, p x = true → x.z_order = c) (a : CharacterInstance) :
    ∀ l : List CharacterInstance,
      (List.orderedInsert (fun x y => x.z_order ≤ y.z_order) a l).filter p
        = if p a then a :: l.filter p else l.filter p
  | [] => by
    show ([a].filter p) = _
    rw [List.filter_cons]
  | b :: l => by
    show (if a.z_order ≤ b.z_order then a :: b :: l
          else b :: List.orderedInsert (fun x y => x.z_order ≤ y.z_order) a l).filter p
        = _
    by_cases hab : a.z_order ≤ b.z_order
    · rw [if_pos hab, List.filter_cons]
    · rw [if_neg hab, List.filter_cons, filter_sel_orderedInsert c p hp a l]
      by_cases hpa : p a = true
      · have hblt : b.z_order < a.z_order := Int.not_le.mp hab
        have hbc : p b = false := by
          cases hpb : p b with
          | false => rfl
          | true =>
            have h1 : b.z_order = c := hp b hpb
            have h2 : a.z_order = c := hp a hpa
            omega
        simp [hbc, hpa, List.filter_cons]
      · have hpa2 : p a = false := by
          cases hpb : p a with
          | false => rfl
          | true => exact absurd hpb hpa
        simp [hpa2, List.filter_cons]

/-- Filtering by a fixed-`z_order` predicate commutes with the stable sort:
equal-key elements keep their input order. -/
theorem filter_sel_insertionSort (c : ℤ) (p : CharacterInstance → Bool)
    (hp : ∀ x, p x = true → x.z_order = c) :
    ∀ l : List CharacterInstance, (sortInstancesByZ l).filter p = l.filter p
  | [] => rfl
  | a :: l => by
    show (List.orderedInsert (fun x y => x.z_order ≤ y.z_order) a
        (sortInstancesByZ l)).filter p = _
    rw [filter_sel_orderedInsert c p hp a (sortInstancesByZ l),
      filter_sel_insertionSort c p hp l, List.filter_cons]

/-- Claim C3 (amended): the export draw list processes exactly the visible
instances, in ascending `z_order`; for equal `z_order` the processing order is
the order of the `character_instances` mapping (insertion order, preserved by
the stable sort), not `instance_id` string order. -/
theorem export_instance_order_spec (insts : List CharacterInstance) :
    (∀ (w h : Nat) (m : ℚ), renderCharactersForExport insts w h m
      = (exportInstanceOrder insts).flatMap (fun inst =>
          instanceRenderItems inst ((w / 2 : Nat) : ℚ) ((h / 2 : Nat) : ℚ) m)) ∧
    (exportInstanceOrder insts).Perm (insts.filter (fun i => i.visible)) ∧
    List.Sorted (fun a b : CharacterInstance => a.z_order ≤ b.z_order)
      (exportInstanceOrder insts) ∧
    (∀ c : ℤ, (exportInstanceOrder insts).filter (fun i => i.z_order == c)
      = (insts.filter (fun i => i.visible)).filter (fun i => i.z_order == c)) := by
  refine ⟨fun w h m => rfl, ?_, ?_, ?_⟩
  · unfold exportInstanceOrder sortInstancesByZ
    exact (List.perm_insertionSort _ insts).filter _
  · unfold exportInstanceOrder sortInstancesByZ
    exact (List.sorted_insertionSort _ insts).filter _
  · intro c
    unfold exportInstanceOrder
    rw [List.filter_filter, List.filter_filter]
    exact filter_sel_insertionSort c _
      (fun x hx => eq_of_beq ((Bool.and_eq_true _ _).mp hx).1) insts

/-! ### Claim C4 -/

/-- The per-instance item list at center `(cx, cy)` and multiplier `m` is the
base list (center `0`, multiplier `1`) with every position mapped through
`fun v => v * m + center` and every scale multiplied by `m`. -/
theorem instanceRenderItems_shift (inst : CharacterInstance) (cx cy m : ℚ) :
    instanceRenderItems inst cx cy m
      = (instanceRenderItems inst 0 0 1).map (fun it =>
          { it with x := it.x * m + cx, y := it.y * m + cy, scale := it.scale * m }) := by
  unfold instanceRenderItems
  generalize inst.layer_order = L
  induction L with
  | nil => rfl
  | cons lid rest ih =>
    rw [List.filterMap_cons, List.filterMap_cons]
    cases hcl : dlookup inst.composition_layers lid with
    | none =>
      cases him : dlookup inst.layer_images lid with
      | none =>
        simp only [hcl, him]
        exact ih
      | some img =>
        simp only [hcl, him]
        exact ih
    | some layer =>
      cases him : dlookup inst.layer_images lid with
      | none =>
        simp only [hcl, him]
        exact ih
      | some img =>
        simp only [hcl, him, List.map_cons]
        rw [ih]
        congr 1
        simp [mul_one, add_zero]

/-- Claim C4: doubling the resolution multiplier (and with it the canvas
dimensions) yields the same items in the same order, with offsets from the
respective canvas centers and scales exactly doubled. -/
theorem export_double_resolution (insts : List CharacterInstance) (w h : Nat) :
    (renderCharactersForExport insts (2 * w) (2 * h) 2).map
        (fun it => (it.image, it.layer_id, it.instance_id))
      = (renderCharactersForExport insts w h 1).map
        (fun it => (it.image, it.layer_id, it.instance_id)) ∧
    (renderCharactersForExport insts (2 * w) (2 * h) 2).map
        (fun it => (it.x - ((2 * w / 2 : Nat) : ℚ), it.y - ((2 * h / 2 : Nat) : ℚ),
          it.scale))
      = (renderCharactersForExport insts w h 1).map
        (fun it => (2 * (it.x - ((w / 2 : Nat) : ℚ)), 2 * (it.y - ((h / 2 : Nat) : ℚ)),
          2 * it.scale)) := by
  unfold renderCharactersForExport
  generalize exportInstanceOrder insts = L
  induction L with
  | nil => exact ⟨rfl, rfl⟩
  | cons inst rest ih =>
    rw [List.flatMap_cons, List.flatMap_cons, List.map_append, List.map_append,
      List.map_append, List.map_append]
    refine ⟨?_, ?_⟩
    · rw [ih.1]
      congr 1
      rw [instanceRenderItems_shift inst ((2 * w / 2 : Nat) : ℚ) ((2 * h / 2 : Nat) : ℚ) 2,
        instanceRenderItems_shift inst ((w / 2 : Nat) : ℚ) ((h / 2 : Nat) : ℚ) 1,
        List.map_map, List.map_map]
      apply List.map_congr_left
      intro it _
      rfl
    · rw [ih.2]
      congr 1
      rw [instanceRenderItems_shift inst ((2 * w / 2 : Nat) : ℚ) ((2 * h / 2 : Nat) : ℚ) 2,
        instanceRenderItems_shift inst ((w / 2 : Nat) : ℚ) ((h / 2 : Nat) : ℚ) 1,
        List.map_map, List.map_map]
      apply List.map_congr_left
      intro it _
      simp only [Function.comp_apply, Prod.mk.injEq]
      refine ⟨by ring, by ring, by ring⟩

end GinkaComposer
